import Mathlib

/-!
corokafka: producer configuration, delivery report, producer metadata,
producer topic entry, consumer queue mapping and deserialize visitor.

A shallow embedding of the parts of the corokafka sources that the checked
properties talk about, followed by the theorems.

Conventions of the embedding

* C++ `int`, `int64_t`, `std::chrono::milliseconds` counts are `Int`.
* A pointer that may be null (`std::unique_ptr`, `std::shared_ptr`, `void*`)
  is an `Option`, or a `Nat` address when it is never dereferenced.
* A member function that may throw returns `Except Fault _`.
* A `const` member function that writes a `mutable` member returns the new
  object state next to its result.
* External collaborators (the cppkafka handle, the serializer and callback
  types) are parameters.
-/

namespace Bloomberg.corokafka

/-! ## Common data model -/

/-- The value cppkafka gives to the offset of a `TopicPartition` constructed
without one (`RD_KAFKA_OFFSET_INVALID`). -/
def OFFSET_INVALID : Int := -1001

/-- The cppkafka `TopicPartition`: topic name, partition id and offset. -/
structure TopicPartition where
  topic : String
  partition : Int
  offset : Int
  deriving DecidableEq, Repr

/-- The two-argument constructor `TopicPartition(topic, partition)`: the
offset is left unset. -/
def TopicPartition.mk2 (topic : String) (partition : Int) : TopicPartition :=
  { topic := topic, partition := partition, offset := OFFSET_INVALID }

/-- The accessor `get_partition()`. -/
def TopicPartition.get_partition (tp : TopicPartition) : Int := tp.partition

abbrev TopicPartitionList := List TopicPartition

/-- The cppkafka `Error`: a wrapper around the numeric response code. -/
structure Error where
  code : Int
  deriving DecidableEq, Repr

/-- What a member function does instead of returning: the two exceptions
thrown in `corokafka_producer_configuration.cpp`, and the dereference of a
null pointer (undefined behaviour in C++), kept apart from the exceptions. -/
inductive Fault where
  | runtime_error (what : String)
  | out_of_range
  | null_dereference
  deriving DecidableEq, Repr

/-! ## `corokafka_producer_configuration.cpp` -/

/-- The constant `ProducerConfiguration::s_internalOptionsPrefix`. -/
def s_internalOptionsPrefix : String := "internal.producer."

/-- The initializer of `ProducerConfiguration::s_internalOptions`, in source
order. -/
def s_internalOptions : List String := [
  "internal.producer.max.queue.length",
  "internal.producer.payload.policy",
  "internal.producer.preserve.message.order",
  "internal.producer.retries",
  "internal.producer.timeout.ms",
  "internal.producer.wait.for.acks",
  "internal.producer.wait.for.acks.timeout.ms",
  "internal.producer.flush.wait.for.acks",
  "internal.producer.flush.wait.for.acks.timeout.ms",
  "internal.producer.log.level",
  "internal.producer.skip.unknown.headers",
  "internal.producer.auto.throttle",
  "internal.producer.auto.throttle.multiplier",
  "internal.producer.queue.full.notification"
]

/-- The option names of the table "Recognized internal producer options" of
the specification, row by row (a row `a` / `b` names two options). This list
follows the specification, not the source. -/
def specInternalProducerOptions : List String := [
  "max.queue.length",
  "payload.policy",
  "preserve.message.order",
  "retries",
  "timeout.ms",
  "wait.for.acks",
  "wait.for.acks.timeout.ms",
  "flush.wait.for.acks",
  "flush.wait.for.acks.timeout.ms",
  "log.level",
  "skip.unknown.headers",
  "auto.throttle",
  "auto.throttle.multiplier",
  "queue.full.notification"
]

/-- The data members of `ProducerConfiguration` that
`corokafka_producer_configuration.cpp` reads and writes. The callback and
serializer types are declared elsewhere and are parameters here. A callback
slot holds a `std::function`, which may be empty; a serializer slot holds a
pointer, which may be null; the header serializers are a map from header name
to such a pointer, kept as the list of its entries. -/
structure ProducerConfiguration (DeliveryReportCallback PartitionerCallback
    QueueFullCallback Serializer : Type) where
  _deliveryReportCallback : Option DeliveryReportCallback
  _partitionerCallback : Option PartitionerCallback
  _queueFullCallback : Option QueueFullCallback
  _keySerializer : Option Serializer
  _payloadSerializer : Option Serializer
  _headerSerializers : List (String × Option Serializer)

section ProducerConfigurationOps

variable {D P Q S : Type}

/-- The member function `ProducerConfiguration::getKeySerializer`. -/
def ProducerConfiguration.getKeySerializer
    (self : ProducerConfiguration D P Q S) : Except Fault S :=
  match self._keySerializer with
  | none => .error (.runtime_error "Serializer not set")
  | some s => .ok s

/-- The member function `ProducerConfiguration::getPayloadSerializer`. -/
def ProducerConfiguration.getPayloadSerializer
    (self : ProducerConfiguration D P Q S) : Except Fault S :=
  match self._payloadSerializer with
  | none => .error (.runtime_error "Serializer not set")
  | some s => .ok s

/-- The lookup `std::map::at` on the list of entries of a map: the value of
the entry whose key is `name`, or `std::out_of_range`. -/
def mapAt {V : Type} (name : String) : List (String × V) → Except Fault V
  | [] => .error .out_of_range
  | (k, v) :: rest => if k = name then .ok v else mapAt name rest

/-- The member function `ProducerConfiguration::getHeaderSerializer`:
`*_headerSerializers.at(name)`. -/
def ProducerConfiguration.getHeaderSerializer
    (self : ProducerConfiguration D P Q S) (name : String) : Except Fault S :=
  match mapAt name self._headerSerializers with
  | .error e => .error e
  | .ok none => .error .null_dereference
  | .ok (some s) => .ok s

/-- The member function `ProducerConfiguration::setCallback` taking a
`Callbacks::DeliveryReportCallback`: `_deliveryReportCallback = std::move(callback)`.
The argument is a `std::function`, which may be empty. -/
def ProducerConfiguration.setCallback_DeliveryReportCallback
    (self : ProducerConfiguration D P Q S) (callback : Option D) :
    ProducerConfiguration D P Q S :=
  { self with _deliveryReportCallback := callback }

/-- The member function `ProducerConfiguration::getDeliveryReportCallback`. -/
def ProducerConfiguration.getDeliveryReportCallback
    (self : ProducerConfiguration D P Q S) : Option D :=
  self._deliveryReportCallback

/-- The member function `ProducerConfiguration::setCallback` taking a
`Callbacks::PartitionerCallback`: `_partitionerCallback = callback`. -/
def ProducerConfiguration.setCallback_PartitionerCallback
    (self : ProducerConfiguration D P Q S) (callback : Option P) :
    ProducerConfiguration D P Q S :=
  { self with _partitionerCallback := callback }

/-- The member function `ProducerConfiguration::getPartitionerCallback`. -/
def ProducerConfiguration.getPartitionerCallback
    (self : ProducerConfiguration D P Q S) : Option P :=
  self._partitionerCallback

/-- The member function `ProducerConfiguration::setQueueFullCallback`:
`_queueFullCallback = callback`. -/
def ProducerConfiguration.setQueueFullCallback
    (self : ProducerConfiguration D P Q S) (callback : Option Q) :
    ProducerConfiguration D P Q S :=
  { self with _queueFullCallback := callback }

/-- The member function `ProducerConfiguration::getQueueFullCallback`. -/
def ProducerConfiguration.getQueueFullCallback
    (self : ProducerConfiguration D P Q S) : Option Q :=
  self._queueFullCallback

end ProducerConfigurationOps

/-! ## `corokafka_delivery_report.h` -/

/-- The class `DeliveryReport`: its three private data members. The opaque
pointer is an address, never looked through. -/
structure DeliveryReport where
  _topicPartition : TopicPartition
  _error : Error
  _opaque : Nat
  deriving DecidableEq, Repr

/-- Modelled from the spec: the body of the constructor
`DeliveryReport(TopicPartition, Error, void*)`, which the header only
declares. The specification describes a delivery report as the tuple
(TopicPartition, Error, Opaque) with the opaque handle carried verbatim. -/
def DeliveryReport.new (topicPartition : TopicPartition) (error : Error)
    (opaque_ptr : Nat) : DeliveryReport :=
  { _topicPartition := topicPartition, _error := error, _opaque := opaque_ptr }

/-- Modelled from the spec: the body of `getTopicPartition()`, which the
header only declares ("Gets the message topic partition"). -/
def DeliveryReport.getTopicPartition (self : DeliveryReport) : TopicPartition :=
  self._topicPartition

/-- Modelled from the spec: the body of `getError()`, which the header only
declares ("Gets the message delivery error"). -/
def DeliveryReport.getError (self : DeliveryReport) : Error :=
  self._error

/-- Modelled from the spec: the body of `getOpaque()`, which the header only
declares ("Gets the opaque data associated with the message"). -/
def DeliveryReport.getOpaque (self : DeliveryReport) : Nat :=
  self._opaque

/-! ## `corokafka_producer_metadata.cpp` -/

/-- The cppkafka `PartitionMetadata`, reduced to what `get_id()` returns. -/
structure PartitionMetadata where
  id : Int
  deriving DecidableEq, Repr

/-- The accessor `get_id()`. -/
def PartitionMetadata.get_id (m : PartitionMetadata) : Int := m.id

/-- The cppkafka `TopicMetadata` that `getTopicMetadata()` returns at the time
of a call, reduced to its partition list. -/
structure TopicMetadata where
  partitions : List PartitionMetadata
  deriving DecidableEq, Repr

/-- The accessor `get_partitions()`. -/
def TopicMetadata.get_partitions (t : TopicMetadata) : List PartitionMetadata :=
  t.partitions

/-- Modelled from the spec: the entry type of `Metadata::OffsetWatermarkList`,
declared in a header outside the given sources: "offset watermarks (low/high
per partition)". It is built from a partition id and the pair that
`query_offsets` returns. -/
structure OffsetWatermark where
  _partition : Int
  _watermark : Int × Int
  deriving DecidableEq, Repr

/-- A `Timestamp`, reduced to `time_since_epoch()` counted in milliseconds. -/
structure Timestamp where
  time_since_epoch : Int
  deriving DecidableEq, Repr

/-- The `KafkaHandleBase::TopicPartitionsTimestampsMap`, a
`std::map<TopicPartition, std::chrono::milliseconds>`, kept as the list of its
entries in key order. -/
abbrev TopicPartitionsTimestampsMap := List (TopicPartition × Int)

/-- The order cppkafka defines on `TopicPartition` (`operator<`): by topic,
then by partition; the offset takes no part. -/
def TopicPartition.lt (a b : TopicPartition) : Bool :=
  decide (a.topic < b.topic) || (a.topic == b.topic && decide (a.partition < b.partition))

/-- Two keys are the same key of a `std::map` ordered by `lt` when neither is
below the other. -/
def keyEquiv {K : Type} (lt : K → K → Bool) (a b : K) : Bool :=
  !lt a b && !lt b a

/-- The statement `m[k] = v` on a `std::map` ordered by `lt`: an entry whose
key is equivalent to `k` keeps its key and takes the value `v`; otherwise the
entry `(k, v)` is inserted at its place in the order. -/
def mapAssign {K V : Type} (lt : K → K → Bool) (k : K) (v : V) :
    List (K × V) → List (K × V)
  | [] => [(k, v)]
  | (k', v') :: rest =>
    if lt k k' then (k, v) :: (k', v') :: rest
    else if lt k' k then (k', v') :: mapAssign lt k v rest
    else (k', v) :: rest

/-- The calls `ProducerMetadata` makes on its cppkafka handle `_handle`. -/
structure KafkaHandle where
  query_offsets : TopicPartition → Int × Int
  get_offsets_for_times : TopicPartitionsTimestampsMap → TopicPartitionList

/-- The data members of `ProducerMetadata` (inherited from `Metadata`) that
`corokafka_producer_metadata.cpp` reads and writes: the topic name and the
`mutable` partition cache. -/
structure ProducerMetadata where
  _topic : String
  _partitions : TopicPartitionList
  deriving DecidableEq, Repr

/-- The constructors of `ProducerMetadata`: the partition cache starts
empty. -/
def ProducerMetadata.new (topic : String) : ProducerMetadata :=
  { _topic := topic, _partitions := [] }

/-- The loop of `getTopicPartitions`: one `emplace_back(_topic, meta.get_id())`
per element of the metadata's partition list, onto the cache. -/
def fillPartitions (topic : String) (metas : List PartitionMetadata)
    (cache : TopicPartitionList) : TopicPartitionList :=
  metas.foldl (fun acc m => acc ++ [TopicPartition.mk2 topic m.get_id]) cache

/-- The member function `ProducerMetadata::getTopicPartitions`, called when
`getTopicMetadata()` yields `tm`: the returned list and the object after the
call. -/
def ProducerMetadata.getTopicPartitions (self : ProducerMetadata)
    (tm : TopicMetadata) : TopicPartitionList × ProducerMetadata :=
  if self._partitions.isEmpty then
    let filled := fillPartitions self._topic tm.get_partitions self._partitions
    (filled, { self with _partitions := filled })
  else
    (self._partitions, self)

/-- The member function `ProducerMetadata::queryOffsetWatermarks`. -/
def ProducerMetadata.queryOffsetWatermarks (self : ProducerMetadata)
    (tm : TopicMetadata) (handle : KafkaHandle) :
    List OffsetWatermark × ProducerMetadata :=
  let r := self.getTopicPartitions tm
  (r.1.foldl
    (fun offsets p =>
      offsets ++ [OffsetWatermark.mk p.get_partition (handle.query_offsets p)])
    [],
   r.2)

/-- The map `queryOffsetsAtTime` builds before it calls the handle: one
`timestampMap[partition] = epochTime` per partition of the list, on a map
ordered by the `operator<` of its key type. -/
def buildTimestampMap (parts : TopicPartitionList) (epochTime : Int) :
    TopicPartitionsTimestampsMap :=
  parts.foldl (fun m p => mapAssign TopicPartition.lt p epochTime m) []

/-- The member function `ProducerMetadata::queryOffsetsAtTime`. -/
def ProducerMetadata.queryOffsetsAtTime (self : ProducerMetadata) (tm : TopicMetadata)
    (handle : KafkaHandle) (timestamp : Timestamp) :
    TopicPartitionList × ProducerMetadata :=
  let epochTime := timestamp.time_since_epoch
  let r := self.getTopicPartitions tm
  (handle.get_offsets_for_times (buildTimestampMap r.1 epochTime), r.2)

/-! ## `corokafka_consumer_manager_impl.h` -/

/-- Modelled from the spec: the `ConsumerTopicEntry`, whose header is outside
the given sources, reduced to the number N of logical dispatch queues of the
round-robin policy. -/
structure ConsumerTopicEntry where
  numQueues : Int
  deriving DecidableEq, Repr

/-- Modelled from the spec: the body of
`ConsumerManagerImpl::mapPartitionToQueue`, which the header only declares
(`static int mapPartitionToQueue(int partition, const ConsumerTopicEntry&)`).
The specification: "partitions incoming messages across N logical queues by
partition mod N". The remainder is the one of C++ `int`, which truncates. -/
def ConsumerManagerImpl.mapPartitionToQueue (partition : Int)
    (topicEntry : ConsumerTopicEntry) : Int :=
  Int.tmod partition topicEntry.numQueues

/-- The argument of `DeserializeVisitor`, a `boost::variant` of the two types
its `operator()` overloads take: a deserialized message, or a pointer to a
coroutine future of one, which may be null. The message and future types are
declared elsewhere and are parameters. -/
inductive DeserializedVariant (M FUT : Type) where
  | message (msg : M)
  | future (ptr : Option FUT)

/-- The two `operator()` overloads of `ConsumerManagerImpl::DeserializeVisitor`,
as applied through the variant. `emptyMessage` is the value of
`DeserializedMessage{}`; `get` is `future->get(quantum::local::context())`,
which yields a message or passes on the failure `E` the future holds. The
state `std::move(msg)` leaves in the visited variant is not part of the
result. -/
def ConsumerManagerImpl.DeserializeVisitor {M FUT E : Type} (emptyMessage : M)
    (get : FUT → Except E M) : DeserializedVariant M FUT → Except E M
  | .message msg => .ok msg
  | .future (some fut) => get fut
  | .future none => .ok emptyMessage

/-! ## `corokafka_producer_topic_entry.h` -/

/-- The enumeration `QueueFullNotification`, spelled as in the source. -/
inductive QueueFullNotification where
  | OncePerMessage
  | EachOccurence
  | EdgeTriggered
  deriving DecidableEq, Repr

/-- The cppkafka enumeration `Producer::PayloadPolicy`. -/
inductive PayloadPolicy where
  | PASSTHROUGH_PAYLOAD
  | COPY_PAYLOAD
  | FREE_PAYLOAD
  | BLOCK_ON_FULL_QUEUE
  deriving DecidableEq, Repr

/-- The cppkafka enumeration `LogLevel`. -/
inductive LogLevel where
  | LogEmerg | LogAlert | LogCrit | LogErr
  | LogWarning | LogNotice | LogInfo | LogDebug
  deriving DecidableEq, Repr

/-- The struct `ProducerTopicEntry`. The three members set by the constructors
come first; every other member carries its default member initializer. The
connector configuration, producer configuration, producer and future types
are parameters. `_throttleTime` has no initializer: a default-constructed
`time_point` is the clock's epoch, tick 0. Time points and durations are
counted in milliseconds. -/
structure ProducerTopicEntry (CC PC PR FUT : Type) where
  _connectorConfiguration : CC
  _configuration : PC
  _producer : Option PR
  _topicHash : Nat := 0
  _pollFuture : Option FUT := none
  _throttleTime : Int := 0
  _throttleDuration : Int := 0
  _autoThrottle : Bool := false
  _throttleMultiplier : Nat := 1
  _waitForAcks : Bool := false
  _flushWaitForAcks : Bool := false
  _waitForAcksTimeout : Int := 0
  _flushWaitForAcksTimeout : Int := 0
  _forceSyncFlush : Bool := false
  _preserveMessageOrder : Bool := false
  _skipUnknownHeaders : Bool := true
  _payloadPolicy : PayloadPolicy := PayloadPolicy.COPY_PAYLOAD
  _maxQueueLength : Nat := 10000
  _logLevel : LogLevel := LogLevel.LogInfo
  _queueFullNotification : QueueFullNotification := QueueFullNotification.OncePerMessage
  _queueFullTrigger : Bool := true

section ProducerTopicEntryOps

variable {CC PC PR FUT : Type}

/-- The first constructor: the producer configuration is copied. -/
def ProducerTopicEntry.newCopy (producer : Option PR) (connectorConfiguration : CC)
    (configuration : PC) : ProducerTopicEntry CC PC PR FUT :=
  { _connectorConfiguration := connectorConfiguration,
    _configuration := configuration,
    _producer := producer }

/-- The second constructor: the producer configuration is moved in. -/
def ProducerTopicEntry.newMove (producer : Option PR) (connectorConfiguration : CC)
    (configuration : PC) : ProducerTopicEntry CC PC PR FUT :=
  { _connectorConfiguration := connectorConfiguration,
    _configuration := configuration,
    _producer := producer }

/-- The two throttle states the specification names. -/
inductive ThrottleState where
  | Idle
  | Throttled
  deriving DecidableEq, Repr

/-- Modelled from the spec: the throttle state of an entry. The struct has no
state member; the specification has a notification carry a throttle duration
into the entry and the return to Idle zero it, so an entry is Idle when its
`_throttleDuration` is zero. -/
def ProducerTopicEntry.throttleState (e : ProducerTopicEntry CC PC PR FUT) :
    ThrottleState :=
  if e._throttleDuration = 0 then ThrottleState.Idle else ThrottleState.Throttled

/-- Modelled from the spec: "Effective pause until = throttleTime +
throttleDuration × throttleMultiplier", computed outside the given sources. -/
def ProducerTopicEntry.pauseUntil (e : ProducerTopicEntry CC PC PR FUT) : Int :=
  e._throttleTime + e._throttleDuration * (e._throttleMultiplier : Int)

end ProducerTopicEntryOps

/-! ## Concrete inputs -/

/-- A producer configuration with a key serializer, no payload serializer,
and serializers for the two headers "a" and "b". Serializers are numbered. -/
def exampleConfiguration : ProducerConfiguration Unit Unit Unit Nat :=
  { _deliveryReportCallback := none, _partitionerCallback := none,
    _queueFullCallback := none, _keySerializer := some 7,
    _payloadSerializer := none,
    _headerSerializers := [("a", some 1), ("b", some 2)] }

/-- A producer metadata object for topic "orders", as constructed. -/
def exampleMetadata : ProducerMetadata := ProducerMetadata.new "orders"

/-- A topic metadata answer without partitions. -/
def noPartitions : TopicMetadata := { partitions := [] }

/-- A topic metadata answer with the partitions 0, 1 and 2. -/
def threePartitions : TopicMetadata := { partitions := [⟨0⟩, ⟨1⟩, ⟨2⟩] }

/-- A handle whose watermarks of partition `p` are `(10 p, 10 p + 5)` and
which answers a timestamp query with the keys it was asked about. -/
def exampleHandle : KafkaHandle :=
  { query_offsets := fun tp => (10 * tp.partition, 10 * tp.partition + 5),
    get_offsets_for_times := fun m => m.map Prod.fst }

/-- A future that is numbered; future 0 holds a failure, every other future
`n` yields the message `n`. Messages are numbers, the empty message is 0. -/
def exampleFutureGet : Nat → Except String Nat :=
  fun n => if n = 0 then .error "broken promise" else .ok n

/-! ## Theorems -/

/-! ### The internal producer options -/

/-- C1: the initializer of `s_internalOptions` has 14 members, no two equal;
it is, in order, the list of the specification's option names, each with the
prefix `s_internalOptionsPrefix` put before it. Hence every member starts
with the prefix, a string is a member exactly when it is the prefix followed
by a name of the table, and the suffixes are the table's names, none missing
and none extra. -/
theorem s_internalOptions_eq_spec_table :
    s_internalOptions.length = 14 ∧
    s_internalOptions.Nodup ∧
    specInternalProducerOptions.Nodup ∧
    s_internalOptions =
      specInternalProducerOptions.map (fun n => s_internalOptionsPrefix ++ n) ∧
    (∀ o ∈ s_internalOptions, ∃ n, o = s_internalOptionsPrefix ++ n) ∧
    (∀ o, o ∈ s_internalOptions ↔
      ∃ n ∈ specInternalProducerOptions, o = s_internalOptionsPrefix ++ n) ∧
    s_internalOptions.map (fun o => o.drop s_internalOptionsPrefix.length) =
      specInternalProducerOptions := by
  have hmap : s_internalOptions =
      specInternalProducerOptions.map (fun n => s_internalOptionsPrefix ++ n) := by
    decide
  refine ⟨by decide, by decide, by decide, hmap, ?_, ?_, ?_⟩
  · intro o ho
    rw [hmap] at ho
    obtain ⟨n, -, rfl⟩ := List.mem_map.mp ho
    exact ⟨n, rfl⟩
  · intro o
    rw [hmap, List.mem_map]
    constructor
    · rintro ⟨n, hn, rfl⟩
      exact ⟨n, hn, rfl⟩
    · rintro ⟨n, hn, rfl⟩
      exact ⟨n, hn, rfl⟩
  · decide

/-! ### The delivery report -/

/-- C2: a delivery report constructed from a topic partition, an error and an
opaque pointer gives back, through `getOpaque`, `getTopicPartition` and
`getError`, the very pointer, topic partition and error it was constructed
from. -/
theorem DeliveryReport_getters_of_new (tp : TopicPartition) (e : Error) (p : Nat) :
    (DeliveryReport.new tp e p).getOpaque = p ∧
    (DeliveryReport.new tp e p).getTopicPartition = tp ∧
    (DeliveryReport.new tp e p).getError = e :=
  ⟨rfl, rfl, rfl⟩

/-! ### The serializer getters -/

section SerializerGetters

variable {D P Q S : Type}

/-- C3: for the key and for the payload role, the getter fails exactly when
the role's serializer is not set, and then with the runtime error "Serializer
not set"; when a serializer is set the getter returns it; and the outcome for
one role stays the same whatever is put in the other role's slot. -/
theorem serializer_getter_fails_iff_not_set (cfg : ProducerConfiguration D P Q S) :
    ((∃ f, cfg.getKeySerializer = .error f) ↔ cfg._keySerializer = none) ∧
    (cfg.getKeySerializer = .error (.runtime_error "Serializer not set") ↔
      cfg._keySerializer = none) ∧
    (∀ s, cfg.getKeySerializer = .ok s ↔ cfg._keySerializer = some s) ∧
    ((∃ f, cfg.getPayloadSerializer = .error f) ↔ cfg._payloadSerializer = none) ∧
    (cfg.getPayloadSerializer = .error (.runtime_error "Serializer not set") ↔
      cfg._payloadSerializer = none) ∧
    (∀ s, cfg.getPayloadSerializer = .ok s ↔ cfg._payloadSerializer = some s) ∧
    (∀ other, ({ cfg with _payloadSerializer := other }).getKeySerializer =
      cfg.getKeySerializer) ∧
    (∀ other, ({ cfg with _keySerializer := other }).getPayloadSerializer =
      cfg.getPayloadSerializer) := by
  obtain ⟨d, p, q, ks, ps, hs⟩ := cfg
  refine ⟨?_, ?_, ?_, ?_, ?_, ?_, fun _ => rfl, fun _ => rfl⟩
  · cases ks <;> simp [ProducerConfiguration.getKeySerializer]
  · cases ks <;> simp [ProducerConfiguration.getKeySerializer]
  · intro s
    cases ks <;> simp [ProducerConfiguration.getKeySerializer]
  · cases ps <;> simp [ProducerConfiguration.getPayloadSerializer]
  · cases ps <;> simp [ProducerConfiguration.getPayloadSerializer]
  · intro s
    cases ps <;> simp [ProducerConfiguration.getPayloadSerializer]

/-- On `exampleConfiguration`, which has a key serializer and no payload
serializer, the key getter returns the serializer and the payload getter
fails. -/
theorem serializer_getter_example :
    exampleConfiguration.getKeySerializer = .ok 7 ∧
    exampleConfiguration.getPayloadSerializer =
      .error (.runtime_error "Serializer not set") :=
  ⟨((serializer_getter_fails_iff_not_set exampleConfiguration).2.2.1 7).mpr rfl,
    (serializer_getter_fails_iff_not_set exampleConfiguration).2.2.2.2.1.mpr rfl⟩

/-! ### The header serializer lookup -/

/-- The lookup `mapAt` finds the value of an entry of a map with pairwise
different keys. -/
theorem mapAt_of_mem {V : Type} (name : String) (v : V) :
    ∀ (m : List (String × V)), (m.map Prod.fst).Nodup → (name, v) ∈ m →
      mapAt name m = .ok v
  | [], _, h => by simp at h
  | (k, w) :: rest, hnd, h => by
    rw [List.map_cons, List.nodup_cons] at hnd
    rcases List.mem_cons.mp h with heq | hmem
    · cases heq
      simp [mapAt]
    · have hne : k ≠ name := by
        rintro rfl
        exact hnd.1 (List.mem_map.mpr ⟨(k, v), hmem, rfl⟩)
      simp [mapAt, hne, mapAt_of_mem name v rest hnd.2 hmem]

/-- What `mapAt` returns is the value of an entry stored under the name asked
for. -/
theorem mem_of_mapAt {V : Type} (name : String) (v : V) :
    ∀ (m : List (String × V)), mapAt name m = .ok v → (name, v) ∈ m
  | [], h => by simp [mapAt] at h
  | (k, w) :: rest, h => by
    by_cases hk : k = name
    · subst hk
      simp [mapAt] at h
      simp [h]
    · simp [mapAt, hk] at h
      exact List.mem_cons_of_mem _ (mem_of_mapAt name v rest h)

/-- The lookup `mapAt` fails with `out_of_range` on a name without entry. -/
theorem mapAt_of_not_mem {V : Type} (name : String) :
    ∀ (m : List (String × V)), (∀ v, (name, v) ∉ m) → mapAt name m = .error .out_of_range
  | [], _ => rfl
  | (k, w) :: rest, h => by
    have hne : k ≠ name := by
      rintro rfl
      exact h w (List.mem_cons_self _ _)
    have hrest : ∀ v, (name, v) ∉ rest := fun v hv => h v (List.mem_cons_of_mem _ hv)
    simp [mapAt, hne, mapAt_of_not_mem name rest hrest]

/-- The lookup `mapAt` fails only with `out_of_range`, and only on a name
without entry. -/
theorem not_mem_of_mapAt_error {V : Type} (name : String) (f : Fault) :
    ∀ (m : List (String × V)), mapAt name m = .error f →
      f = .out_of_range ∧ ∀ v, (name, v) ∉ m
  | [], h => by
    simp [mapAt] at h
    exact ⟨h.symm, fun v hv => by simp at hv⟩
  | (k, w) :: rest, h => by
    by_cases hk : k = name
    · simp [mapAt, hk] at h
    · simp [mapAt, hk] at h
      obtain ⟨hf, hrest⟩ := not_mem_of_mapAt_error name f rest h
      refine ⟨hf, fun v hv => ?_⟩
      rcases List.mem_cons.mp hv with heq | hmem
      · exact hk (by cases heq; rfl)
      · exact hrest v hmem

/-- C4: on a header-serializer map (its names pairwise different),
`getHeaderSerializer name` returns the serializer stored under `name` when
the map has an entry for `name` holding a serializer; it fails with
`out_of_range` when, and only when, the map has no entry for `name`; and a
serializer it returns is always the one stored under exactly `name`. -/
theorem getHeaderSerializer_by_name (cfg : ProducerConfiguration D P Q S)
    (name : String) (hmap : (cfg._headerSerializers.map Prod.fst).Nodup) :
    (∀ s, (name, some s) ∈ cfg._headerSerializers →
      cfg.getHeaderSerializer name = .ok s) ∧
    (∀ s, cfg.getHeaderSerializer name = .ok s →
      (name, some s) ∈ cfg._headerSerializers) ∧
    (cfg.getHeaderSerializer name = .error .out_of_range ↔
      ∀ v, (name, v) ∉ cfg._headerSerializers) := by
  refine ⟨?_, ?_, ?_⟩
  · intro s hs
    simp [ProducerConfiguration.getHeaderSerializer,
      mapAt_of_mem name (some s) cfg._headerSerializers hmap hs]
  · intro s hs
    unfold ProducerConfiguration.getHeaderSerializer at hs
    split at hs
    · simp at hs
    · simp at hs
    · next t heq =>
      simp at hs
      subst hs
      exact mem_of_mapAt name (some t) _ heq
  · constructor
    · intro h
      unfold ProducerConfiguration.getHeaderSerializer at h
      split at h
      · next e heq =>
        exact (not_mem_of_mapAt_error name e _ heq).2
      · simp at h
      · simp at h
    · intro h
      simp [ProducerConfiguration.getHeaderSerializer,
        mapAt_of_not_mem name cfg._headerSerializers h]

/-- On `exampleConfiguration`, whose map has the headers "a" and "b", the
lookup of "b" returns the serializer of "b" and the lookup of "c" fails with
`out_of_range`. -/
theorem getHeaderSerializer_example :
    (exampleConfiguration._headerSerializers.map Prod.fst).Nodup ∧
    exampleConfiguration.getHeaderSerializer "b" = .ok 2 ∧
    exampleConfiguration.getHeaderSerializer "c" = .error .out_of_range :=
  ⟨by decide,
    (getHeaderSerializer_by_name exampleConfiguration "b" (by decide)).1 2 (by decide),
    (getHeaderSerializer_by_name exampleConfiguration "c" (by decide)).2.2.mpr
      (fun v hv => by simp [exampleConfiguration] at hv)⟩

end SerializerGetters

/-! ### The partition list of the producer metadata -/

/-- A loop that appends one element per step builds the mapped list after
what it started from. -/
theorem foldl_append_singleton {α β : Type} (f : α → β) :
    ∀ (l : List α) (init : List β),
      l.foldl (fun acc x => acc ++ [f x]) init = init ++ l.map f
  | [], init => by simp
  | x :: l, init => by
    simp [List.foldl_cons, foldl_append_singleton f l (init ++ [f x])]

/-- The loop of `getTopicPartitions` appends to the cache one topic partition
per partition of the metadata, in order. -/
theorem fillPartitions_eq (topic : String) (metas : List PartitionMetadata)
    (cache : TopicPartitionList) :
    fillPartitions topic metas cache =
      cache ++ metas.map (fun m => TopicPartition.mk2 topic m.get_id) :=
  foldl_append_singleton
    (fun (m : PartitionMetadata) => TopicPartition.mk2 topic m.get_id) metas cache

/-- On an empty cache `getTopicPartitions` returns the mapped metadata and
caches it. -/
theorem getTopicPartitions_of_nil (self : ProducerMetadata) (tm : TopicMetadata)
    (hempty : self._partitions = []) :
    self.getTopicPartitions tm =
      (tm.get_partitions.map (fun m => TopicPartition.mk2 self._topic m.get_id),
       { self with
         _partitions := tm.get_partitions.map (fun m => TopicPartition.mk2 self._topic m.get_id) }) := by
  simp [ProducerMetadata.getTopicPartitions, hempty, fillPartitions_eq]

/-- On a cache that is not empty `getTopicPartitions` returns the cache and
leaves the object as it is. -/
theorem getTopicPartitions_of_ne_nil (self : ProducerMetadata) (tm : TopicMetadata)
    (hne : self._partitions ≠ []) :
    self.getTopicPartitions tm = (self._partitions, self) := by
  simp [ProducerMetadata.getTopicPartitions, hne]

/-- What `getTopicPartitions` returns is what the object caches afterwards, and
the topic name stays. -/
theorem getTopicPartitions_cache (self : ProducerMetadata) (tm : TopicMetadata) :
    (self.getTopicPartitions tm).2._partitions = (self.getTopicPartitions tm).1 ∧
    (self.getTopicPartitions tm).2._topic = self._topic := by
  by_cases h : self._partitions = []
  · simp [getTopicPartitions_of_nil self tm h]
  · simp [getTopicPartitions_of_ne_nil self tm h]

/-- C5: on a producer metadata whose partition cache is empty,
`getTopicPartitions` returns one topic partition per partition of the topic
metadata, in the metadata's order: the result is as long as the metadata's
partition list, and its i-th element has the object's topic name, the id of
the metadata's i-th partition, and no offset. -/
theorem getTopicPartitions_of_empty_cache (self : ProducerMetadata) (tm : TopicMetadata)
    (hempty : self._partitions = []) :
    (self.getTopicPartitions tm).1.length = tm.get_partitions.length ∧
    (∀ i : Nat, (self.getTopicPartitions tm).1[i]? =
      (tm.get_partitions[i]?).map
        (fun m => { topic := self._topic, partition := m.get_id, offset := OFFSET_INVALID })) ∧
    (∀ i : Nat, i < tm.get_partitions.length →
      ∃ tp m, (self.getTopicPartitions tm).1[i]? = some tp ∧ tm.get_partitions[i]? = some m ∧
        tp.topic = self._topic ∧ tp.partition = m.get_id ∧ tp.offset = OFFSET_INVALID) := by
  rw [getTopicPartitions_of_nil self tm hempty]
  refine ⟨by simp, ?_, ?_⟩
  · intro i
    simp [List.getElem?_map, TopicPartition.mk2]
  · intro i hi
    refine ⟨TopicPartition.mk2 self._topic (tm.get_partitions[i]).get_id,
      tm.get_partitions[i], ?_, ?_, rfl, rfl, rfl⟩
    · simp [List.getElem?_map, List.getElem?_eq_getElem hi]
    · exact List.getElem?_eq_getElem hi

/-- The freshly constructed `exampleMetadata`, asked while the topic has the
partitions 0, 1 and 2, returns these three partitions of "orders". -/
theorem getTopicPartitions_of_empty_cache_example :
    exampleMetadata._partitions = [] ∧
    (exampleMetadata.getTopicPartitions threePartitions).1.length = 3 ∧
    (exampleMetadata.getTopicPartitions threePartitions).1[1]? =
      some { topic := "orders", partition := 1, offset := OFFSET_INVALID } :=
  ⟨rfl,
    (getTopicPartitions_of_empty_cache exampleMetadata threePartitions rfl).1,
    (getTopicPartitions_of_empty_cache exampleMetadata threePartitions rfl).2.1 1⟩

/-- C6, as stated, fails: `exampleMetadata`, asked first while the topic
metadata reports no partition and then while it reports three, returns the
empty list from the first call and three partitions from the second. -/
theorem getTopicPartitions_second_call_differs :
    ((exampleMetadata.getTopicPartitions noPartitions).2.getTopicPartitions
        threePartitions).1 ≠
      (exampleMetadata.getTopicPartitions noPartitions).1 := by
  decide

/-- C6, amended: when the first of two successive calls of
`getTopicPartitions` returned a list that is not empty, the second call
returns the same list, whatever partitions the topic metadata reports at the
time of the second call, and leaves the object as the first call left it. -/
theorem getTopicPartitions_snapshot (self : ProducerMetadata) (tm1 tm2 : TopicMetadata)
    (hne : (self.getTopicPartitions tm1).1 ≠ []) :
    ((self.getTopicPartitions tm1).2.getTopicPartitions tm2).1 =
      (self.getTopicPartitions tm1).1 ∧
    ((self.getTopicPartitions tm1).2.getTopicPartitions tm2).2 =
      (self.getTopicPartitions tm1).2 := by
  have hcache := (getTopicPartitions_cache self tm1).1
  have hne2 : (self.getTopicPartitions tm1).2._partitions ≠ [] := by
    rw [hcache]
    exact hne
  rw [getTopicPartitions_of_ne_nil _ tm2 hne2]
  exact ⟨hcache, rfl⟩

/-- The freshly constructed `exampleMetadata`, asked first while the topic has
three partitions and then while it has none, returns the three partitions
both times. -/
theorem getTopicPartitions_snapshot_example :
    (exampleMetadata.getTopicPartitions threePartitions).1 ≠ [] ∧
    ((exampleMetadata.getTopicPartitions threePartitions).2.getTopicPartitions
        noPartitions).1 =
      (exampleMetadata.getTopicPartitions threePartitions).1 :=
  ⟨by decide,
    (getTopicPartitions_snapshot exampleMetadata threePartitions noPartitions
      (by decide)).1⟩

/-! ### The offset watermarks -/

/-- C7: `queryOffsetWatermarks` returns one entry per partition of
`getTopicPartitions`, in the same order: the result is as long as the
partition list, its i-th entry holds the partition id of the i-th partition
and the offsets `query_offsets` returns for that partition, and an empty
partition list gives an empty result. The object is left as
`getTopicPartitions` leaves it. -/
theorem queryOffsetWatermarks_per_partition (self : ProducerMetadata)
    (tm : TopicMetadata) (handle : KafkaHandle) :
    (self.queryOffsetWatermarks tm handle).1.length =
      (self.getTopicPartitions tm).1.length ∧
    (∀ i : Nat, (self.queryOffsetWatermarks tm handle).1[i]? =
      ((self.getTopicPartitions tm).1[i]?).map
        (fun p => { _partition := p.partition, _watermark := handle.query_offsets p })) ∧
    ((self.getTopicPartitions tm).1 = [] →
      (self.queryOffsetWatermarks tm handle).1 = []) ∧
    (self.queryOffsetWatermarks tm handle).2 = (self.getTopicPartitions tm).2 := by
  have hq : (self.queryOffsetWatermarks tm handle).1 =
      (self.getTopicPartitions tm).1.map
        (fun p => OffsetWatermark.mk p.get_partition (handle.query_offsets p)) := by
    simp [ProducerMetadata.queryOffsetWatermarks,
      foldl_append_singleton
        (fun (p : TopicPartition) => OffsetWatermark.mk p.get_partition (handle.query_offsets p))]
  refine ⟨by simp [hq], ?_, ?_, rfl⟩
  · intro i
    rw [hq, List.getElem?_map]
    rfl
  · intro h
    rw [hq, h]
    rfl

/-- On `exampleMetadata` with three partitions and `exampleHandle`, the
watermark list has three entries and the entry at index 2 is that of
partition 2. -/
theorem queryOffsetWatermarks_example :
    (exampleMetadata.queryOffsetWatermarks threePartitions exampleHandle).1.length = 3 ∧
    (exampleMetadata.queryOffsetWatermarks threePartitions exampleHandle).1[2]? =
      some { _partition := 2, _watermark := (20, 25) } :=
  ⟨(queryOffsetWatermarks_per_partition exampleMetadata threePartitions exampleHandle).1,
    (queryOffsetWatermarks_per_partition exampleMetadata threePartitions exampleHandle).2.1 2⟩

/-! ### The timestamp query -/

section TimestampMap

variable {K V : Type}

/-- A key of the map after `m[k] = v` is `k` or was a key before. -/
theorem mapAssign_keys_subset (lt : K → K → Bool) (k : K) (v : V) :
    ∀ (m : List (K × V)) (a : K), a ∈ (mapAssign lt k v m).map Prod.fst →
      a = k ∨ a ∈ m.map Prod.fst
  | [], a, h => by
    simp [mapAssign] at h
    exact Or.inl h
  | (k', v') :: rest, a, h => by
    unfold mapAssign at h
    split at h
    · simp at h
      rcases h with h | h | h
      · exact Or.inl h
      · exact Or.inr (by simp [h])
      · exact Or.inr (by simp [h])
    · split at h
      · rw [List.map_cons, List.mem_cons] at h
        rcases h with h | h
        · exact Or.inr (by simp [h])
        · rcases mapAssign_keys_subset lt k v rest a h with h | h
          · exact Or.inl h
          · exact Or.inr (List.mem_cons_of_mem _ h)
      · exact Or.inr (by simpa using h)

/-- A key of the map stays a key after `m[k] = v`. -/
theorem mapAssign_keys_keep (lt : K → K → Bool) (k : K) (v : V) :
    ∀ (m : List (K × V)) (a : K), a ∈ m.map Prod.fst →
      a ∈ (mapAssign lt k v m).map Prod.fst
  | [], a, h => by simp at h
  | (k', v') :: rest, a, h => by
    unfold mapAssign
    split
    · exact List.mem_cons_of_mem _ h
    · split
      · rw [List.map_cons, List.mem_cons] at h ⊢
        rcases h with h | h
        · exact Or.inl h
        · exact Or.inr (mapAssign_keys_keep lt k v rest a h)
      · simpa using h

/-- After `m[k] = v` the map has `k` itself as a key, or a key equivalent to
`k`. -/
theorem mapAssign_has_key (lt : K → K → Bool) (k : K) (v : V) :
    ∀ (m : List (K × V)), ∃ a ∈ (mapAssign lt k v m).map Prod.fst,
      a = k ∨ keyEquiv lt a k = true
  | [] => ⟨k, by simp [mapAssign], Or.inl rfl⟩
  | (k', v') :: rest => by
    unfold mapAssign
    split
    · exact ⟨k, by simp, Or.inl rfl⟩
    · next h1 =>
      split
      · obtain ⟨a, ha, hk⟩ := mapAssign_has_key lt k v rest
        exact ⟨a, List.mem_cons_of_mem _ ha, hk⟩
      · next h2 =>
        refine ⟨k', by simp, Or.inr ?_⟩
        simp [keyEquiv, h1, h2]

/-- When every value of the map is `v`, so is every value after `m[k] = v`. -/
theorem mapAssign_values (lt : K → K → Bool) (k : K) (v : V) :
    ∀ (m : List (K × V)), (∀ kv ∈ m, kv.2 = v) → ∀ kv ∈ mapAssign lt k v m, kv.2 = v
  | [], _, kv, h => by
    simp [mapAssign] at h
    simp [h]
  | (k', v') :: rest, hall, kv, h => by
    have hrest : ∀ kv ∈ rest, kv.2 = v := fun kv hkv => hall kv (List.mem_cons_of_mem _ hkv)
    unfold mapAssign at h
    split at h
    · rcases List.mem_cons.mp h with h | h
      · simp [h]
      · exact hall kv h
    · split at h
      · rcases List.mem_cons.mp h with h | h
        · exact hall kv (by simp [h])
        · exact mapAssign_values lt k v rest hrest kv h
      · rcases List.mem_cons.mp h with h | h
        · simp [h]
        · exact hrest kv h

end TimestampMap

/-- Two topic partitions that are the same key under cppkafka's order have
the same topic and the same partition id. -/
theorem TopicPartition.same_of_keyEquiv (a b : TopicPartition)
    (h : keyEquiv TopicPartition.lt a b = true) :
    a.topic = b.topic ∧ a.partition = b.partition := by
  simp only [keyEquiv, TopicPartition.lt, Bool.and_eq_true, Bool.not_eq_true',
    Bool.or_eq_false_iff, decide_eq_false_iff_not, Bool.and_eq_false_iff,
    beq_eq_false_iff_ne] at h
  obtain ⟨⟨hab, hab2⟩, ⟨hba, hba2⟩⟩ := h
  have ht : a.topic = b.topic := le_antisymm (not_lt.mp hba) (not_lt.mp hab)
  refine ⟨ht, ?_⟩
  rcases hab2 with h | h
  · exact absurd ht h
  · rcases hba2 with h2 | h2
    · exact absurd ht.symm h2
    · omega

/-- The loop of `queryOffsetsAtTime`, started from any map: the keys come
from the start map or from the list, the keys of the start map stay, every
partition of the list gets a key with its topic and partition id, and the
values are the time when those of the start map are. -/
theorem timestampLoop_spec (epochTime : Int) :
    ∀ (parts : TopicPartitionList) (acc : TopicPartitionsTimestampsMap),
      (∀ a, a ∈ (parts.foldl (fun m p => mapAssign TopicPartition.lt p epochTime m) acc).map
          Prod.fst → a ∈ acc.map Prod.fst ∨ a ∈ parts) ∧
      (∀ a, a ∈ acc.map Prod.fst →
        a ∈ (parts.foldl (fun m p => mapAssign TopicPartition.lt p epochTime m) acc).map
          Prod.fst) ∧
      (∀ p ∈ parts, ∃ a ∈ (parts.foldl (fun m p => mapAssign TopicPartition.lt p epochTime m)
          acc).map Prod.fst, a.topic = p.topic ∧ a.partition = p.partition) ∧
      ((∀ kv ∈ acc, kv.2 = epochTime) →
        ∀ kv ∈ parts.foldl (fun m p => mapAssign TopicPartition.lt p epochTime m) acc,
          kv.2 = epochTime)
  | [], acc => by
    refine ⟨fun a h => Or.inl h, fun a h => h, ?_, fun h => h⟩
    intro p hp
    simp at hp
  | q :: parts, acc => by
    obtain ⟨h1, h2, h3, h4⟩ :=
      timestampLoop_spec epochTime parts (mapAssign TopicPartition.lt q epochTime acc)
    rw [List.foldl_cons]
    refine ⟨?_, ?_, ?_, ?_⟩
    · intro a ha
      rcases h1 a ha with h | h
      · rcases mapAssign_keys_subset TopicPartition.lt q epochTime acc a h with h | h
        · exact Or.inr (by simp [h])
        · exact Or.inl h
      · exact Or.inr (List.mem_cons_of_mem _ h)
    · intro a ha
      exact h2 a (mapAssign_keys_keep TopicPartition.lt q epochTime acc a ha)
    · intro p hp
      rcases List.mem_cons.mp hp with hp | hp
      · subst hp
        obtain ⟨a, ha, hk⟩ := mapAssign_has_key TopicPartition.lt p epochTime acc
        refine ⟨a, h2 a ha, ?_⟩
        rcases hk with hk | hk
        · simp [hk]
        · exact TopicPartition.same_of_keyEquiv a p hk
      · exact h3 p hp
    · intro hacc
      exact h4 (mapAssign_values TopicPartition.lt q epochTime acc hacc)

/-- Every partition `getTopicPartitions` returns has no offset, provided the
cached ones have none; the constructor and `getTopicPartitions` itself never
cache any other. -/
theorem getTopicPartitions_offsets (self : ProducerMetadata) (tm : TopicMetadata)
    (hinv : ∀ p ∈ self._partitions, p.offset = OFFSET_INVALID) :
    ∀ p ∈ (self.getTopicPartitions tm).1, p.offset = OFFSET_INVALID := by
  by_cases h : self._partitions = []
  · rw [getTopicPartitions_of_nil self tm h]
    intro p hp
    obtain ⟨m, -, rfl⟩ := List.mem_map.mp hp
    rfl
  · rw [getTopicPartitions_of_ne_nil self tm h]
    exact hinv

/-- C8: `queryOffsetsAtTime` returns, unmodified, what the handle's
`get_offsets_for_times` answers for the map the function built from the list
of `getTopicPartitions`. Every key of that map is a partition of the list;
every partition of the list has a key with its topic and partition id (what
makes two keys of this map the same key); every value is the timestamp's time
since epoch in milliseconds. When the cached partitions carry no offset, as
all that `getTopicPartitions` ever caches, the keys are exactly the
partitions of the list. -/
theorem queryOffsetsAtTime_asks_every_partition (self : ProducerMetadata)
    (tm : TopicMetadata) (handle : KafkaHandle) (timestamp : Timestamp) :
    (self.queryOffsetsAtTime tm handle timestamp).1 =
      handle.get_offsets_for_times
        (buildTimestampMap (self.getTopicPartitions tm).1 timestamp.time_since_epoch) ∧
    (∀ k, k ∈ (buildTimestampMap (self.getTopicPartitions tm).1
        timestamp.time_since_epoch).map Prod.fst → k ∈ (self.getTopicPartitions tm).1) ∧
    (∀ p ∈ (self.getTopicPartitions tm).1,
      ∃ k ∈ (buildTimestampMap (self.getTopicPartitions tm).1
          timestamp.time_since_epoch).map Prod.fst,
        k.topic = p.topic ∧ k.partition = p.partition) ∧
    (∀ kv ∈ buildTimestampMap (self.getTopicPartitions tm).1 timestamp.time_since_epoch,
      kv.2 = timestamp.time_since_epoch) ∧
    ((∀ p ∈ self._partitions, p.offset = OFFSET_INVALID) →
      ∀ p, p ∈ (buildTimestampMap (self.getTopicPartitions tm).1
          timestamp.time_since_epoch).map Prod.fst ↔ p ∈ (self.getTopicPartitions tm).1) ∧
    (self.queryOffsetsAtTime tm handle timestamp).2 = (self.getTopicPartitions tm).2 := by
  obtain ⟨h1, -, h3, h4⟩ :=
    timestampLoop_spec timestamp.time_since_epoch (self.getTopicPartitions tm).1 []
  have hsub : ∀ k, k ∈ (buildTimestampMap (self.getTopicPartitions tm).1
      timestamp.time_since_epoch).map Prod.fst → k ∈ (self.getTopicPartitions tm).1 := by
    intro k hk
    rcases h1 k hk with h | h
    · simp at h
    · exact h
  refine ⟨rfl, hsub, h3, h4 (by simp), ?_, rfl⟩
  intro hinv p
  have hoff := getTopicPartitions_offsets self tm hinv
  constructor
  · exact hsub p
  · intro hp
    obtain ⟨k, hk, htopic, hpart⟩ := h3 p hp
    have hkp : k = p := by
      have hko := hoff k (hsub k hk)
      have hpo := hoff p hp
      cases k
      cases p
      simp_all
    rw [← hkp]
    exact hk

/-- On `exampleMetadata` with three partitions, asked for time 1500: the
handle is given the three partitions, each with the value 1500. -/
theorem queryOffsetsAtTime_example :
    (exampleMetadata.queryOffsetsAtTime threePartitions exampleHandle ⟨1500⟩).1 =
      [⟨"orders", 0, OFFSET_INVALID⟩, ⟨"orders", 1, OFFSET_INVALID⟩,
        ⟨"orders", 2, OFFSET_INVALID⟩] ∧
    buildTimestampMap (exampleMetadata.getTopicPartitions threePartitions).1 1500 =
      [(⟨"orders", 0, OFFSET_INVALID⟩, 1500), (⟨"orders", 1, OFFSET_INVALID⟩, 1500),
        (⟨"orders", 2, OFFSET_INVALID⟩, 1500)] ∧
    (∀ p, p ∈ (buildTimestampMap (exampleMetadata.getTopicPartitions threePartitions).1
        1500).map Prod.fst ↔ p ∈ (exampleMetadata.getTopicPartitions threePartitions).1) :=
  have hparts : (exampleMetadata.getTopicPartitions threePartitions).1 =
      [⟨"orders", 0, OFFSET_INVALID⟩, ⟨"orders", 1, OFFSET_INVALID⟩,
        ⟨"orders", 2, OFFSET_INVALID⟩] := by decide
  have hmap : buildTimestampMap (exampleMetadata.getTopicPartitions threePartitions).1 1500 =
      [(⟨"orders", 0, OFFSET_INVALID⟩, 1500), (⟨"orders", 1, OFFSET_INVALID⟩, 1500),
        (⟨"orders", 2, OFFSET_INVALID⟩, 1500)] := by
    rw [hparts]
    simp [buildTimestampMap, mapAssign, TopicPartition.lt]
  ⟨by
      rw [(queryOffsetsAtTime_asks_every_partition exampleMetadata threePartitions
        exampleHandle ⟨1500⟩).1, hmap]
      rfl,
    hmap,
    (queryOffsetsAtTime_asks_every_partition exampleMetadata threePartitions exampleHandle
      ⟨1500⟩).2.2.2.2.1 (by decide)⟩

/-! ### The partition to queue mapping -/

/-- C9: for an entry with N ≥ 1 dispatch queues and a partition p ≥ 0,
`mapPartitionToQueue p entry` is p mod N; the index lies in [0, N); and equal
partitions are mapped to equal queues of the entry. -/
theorem mapPartitionToQueue_eq_mod (entry : ConsumerTopicEntry) (p : Int)
    (hN : 1 ≤ entry.numQueues) (hp : 0 ≤ p) :
    ConsumerManagerImpl.mapPartitionToQueue p entry = p % entry.numQueues ∧
    0 ≤ ConsumerManagerImpl.mapPartitionToQueue p entry ∧
    ConsumerManagerImpl.mapPartitionToQueue p entry < entry.numQueues ∧
    (∀ q : Int, q = p →
      ConsumerManagerImpl.mapPartitionToQueue q entry =
        ConsumerManagerImpl.mapPartitionToQueue p entry) := by
  have hmod : ConsumerManagerImpl.mapPartitionToQueue p entry = p % entry.numQueues := by
    unfold ConsumerManagerImpl.mapPartitionToQueue
    exact Int.tmod_eq_emod hp (by omega)
  refine ⟨hmod, ?_, ?_, ?_⟩
  · rw [hmod]
    exact Int.emod_nonneg p (by omega)
  · rw [hmod]
    exact Int.emod_lt_of_pos p (by omega)
  · rintro q rfl
    rfl

/-- With 4 queues, partition 6 is mapped to queue 2. -/
theorem mapPartitionToQueue_example :
    ConsumerManagerImpl.mapPartitionToQueue 6 ⟨4⟩ = 2 :=
  (mapPartitionToQueue_eq_mod ⟨4⟩ 6 (by decide) (by decide)).1.trans (by decide)

/-! ### The producer topic entry -/

section ProducerTopicEntryDefaults

variable {CC PC PR FUT : Type}

/-- C10: the two constructors of `ProducerTopicEntry` build the same entry
from the same arguments. It holds the arguments, is in the Idle throttle
state with throttle duration 0, multiplier 1 and auto throttle off, so that
its pause-until is its throttle time; its maximal queue length is 10000, its
queue-full notification OncePerMessage with the trigger set, its payload
policy Copy; message order, wait for acks and flush wait for acks are off,
skip unknown headers is on. -/
theorem ProducerTopicEntry_starts_idle_with_defaults (producer : Option PR)
    (connectorConfiguration : CC) (configuration : PC) :
    (ProducerTopicEntry.newMove producer connectorConfiguration configuration :
        ProducerTopicEntry CC PC PR FUT) =
      ProducerTopicEntry.newCopy producer connectorConfiguration configuration ∧
    (ProducerTopicEntry.newCopy producer connectorConfiguration configuration :
        ProducerTopicEntry CC PC PR FUT)._configuration = configuration ∧
    (ProducerTopicEntry.newCopy producer connectorConfiguration configuration :
        ProducerTopicEntry CC PC PR FUT).throttleState = ThrottleState.Idle ∧
    (ProducerTopicEntry.newCopy producer connectorConfiguration configuration :
        ProducerTopicEntry CC PC PR FUT)._throttleDuration = 0 ∧
    (ProducerTopicEntry.newCopy producer connectorConfiguration configuration :
        ProducerTopicEntry CC PC PR FUT)._throttleMultiplier = 1 ∧
    (ProducerTopicEntry.newCopy producer connectorConfiguration configuration :
        ProducerTopicEntry CC PC PR FUT)._autoThrottle = false ∧
    (ProducerTopicEntry.newCopy producer connectorConfiguration configuration :
        ProducerTopicEntry CC PC PR FUT).pauseUntil =
      (ProducerTopicEntry.newCopy producer connectorConfiguration configuration :
        ProducerTopicEntry CC PC PR FUT)._throttleTime ∧
    (ProducerTopicEntry.newCopy producer connectorConfiguration configuration :
        ProducerTopicEntry CC PC PR FUT)._maxQueueLength = 10000 ∧
    (ProducerTopicEntry.newCopy producer connectorConfiguration configuration :
        ProducerTopicEntry CC PC PR FUT)._queueFullNotification =
      QueueFullNotification.OncePerMessage ∧
    (ProducerTopicEntry.newCopy producer connectorConfiguration configuration :
        ProducerTopicEntry CC PC PR FUT)._queueFullTrigger = true ∧
    (ProducerTopicEntry.newCopy producer connectorConfiguration configuration :
        ProducerTopicEntry CC PC PR FUT)._payloadPolicy = PayloadPolicy.COPY_PAYLOAD ∧
    (ProducerTopicEntry.newCopy producer connectorConfiguration configuration :
        ProducerTopicEntry CC PC PR FUT)._preserveMessageOrder = false ∧
    (ProducerTopicEntry.newCopy producer connectorConfiguration configuration :
        ProducerTopicEntry CC PC PR FUT)._waitForAcks = false ∧
    (ProducerTopicEntry.newCopy producer connectorConfiguration configuration :
        ProducerTopicEntry CC PC PR FUT)._flushWaitForAcks = false ∧
    (ProducerTopicEntry.newCopy producer connectorConfiguration configuration :
        ProducerTopicEntry CC PC PR FUT)._skipUnknownHeaders = true := by
  refine ⟨rfl, rfl, rfl, rfl, rfl, rfl, ?_, rfl, rfl, rfl, rfl, rfl, rfl, rfl, rfl⟩
  simp [ProducerTopicEntry.pauseUntil, ProducerTopicEntry.newCopy]

end ProducerTopicEntryDefaults

/-! ### The callback setters -/

section CallbackSetters

variable {D P Q S : Type}

/-- C11: each of the three callback setters of `ProducerConfiguration` stores
its argument in its own slot only: after the call the getter of that kind
returns the argument, the getters of the other two kinds return what they
returned before, and the serializers are the ones from before. -/
theorem callback_setter_writes_own_slot (cfg : ProducerConfiguration D P Q S)
    (d : Option D) (p : Option P) (q : Option Q) :
    ((cfg.setCallback_DeliveryReportCallback d).getDeliveryReportCallback = d ∧
      (cfg.setCallback_DeliveryReportCallback d).getPartitionerCallback =
        cfg.getPartitionerCallback ∧
      (cfg.setCallback_DeliveryReportCallback d).getQueueFullCallback =
        cfg.getQueueFullCallback ∧
      cfg.setCallback_DeliveryReportCallback d =
        { cfg with _deliveryReportCallback := d }) ∧
    ((cfg.setCallback_PartitionerCallback p).getPartitionerCallback = p ∧
      (cfg.setCallback_PartitionerCallback p).getDeliveryReportCallback =
        cfg.getDeliveryReportCallback ∧
      (cfg.setCallback_PartitionerCallback p).getQueueFullCallback =
        cfg.getQueueFullCallback ∧
      cfg.setCallback_PartitionerCallback p =
        { cfg with _partitionerCallback := p }) ∧
    ((cfg.setQueueFullCallback q).getQueueFullCallback = q ∧
      (cfg.setQueueFullCallback q).getDeliveryReportCallback =
        cfg.getDeliveryReportCallback ∧
      (cfg.setQueueFullCallback q).getPartitionerCallback =
        cfg.getPartitionerCallback ∧
      cfg.setQueueFullCallback q = { cfg with _queueFullCallback := q }) :=
  ⟨⟨rfl, rfl, rfl, rfl⟩, ⟨rfl, rfl, rfl, rfl⟩, ⟨rfl, rfl, rfl, rfl⟩⟩

/-- On `exampleConfiguration`, which has no callback, setting the partitioner
callback makes the partitioner getter return it and leaves the other two
getters empty and the key serializer in place. -/
theorem callback_setter_example :
    (exampleConfiguration.setCallback_PartitionerCallback (some ())).getPartitionerCallback =
      some () ∧
    (exampleConfiguration.setCallback_PartitionerCallback
      (some ())).getDeliveryReportCallback = none ∧
    (exampleConfiguration.setCallback_PartitionerCallback (some ())).getQueueFullCallback =
      none ∧
    (exampleConfiguration.setCallback_PartitionerCallback (some ())).getKeySerializer =
      .ok 7 :=
  ⟨(callback_setter_writes_own_slot exampleConfiguration none (some ()) none).2.1.1,
    (callback_setter_writes_own_slot exampleConfiguration none (some ()) none).2.1.2.1,
    (callback_setter_writes_own_slot exampleConfiguration none (some ()) none).2.1.2.2.1,
    rfl⟩

end CallbackSetters

/-! ### The deserialize visitor -/

section Visitor

variable {M FUT E : Type}

/-- C12: `DeserializeVisitor` gives a result on every variant argument. On a
deserialized message it returns that message; on a future that is not null it
returns what the future's `get` gives, so the value the future yields; on a
null future it returns the default-constructed message and does not fail.
The only failure it can end in is one the future itself holds. -/
theorem DeserializeVisitor_total (emptyMessage : M) (get : FUT → Except E M) :
    (∀ m : M, ConsumerManagerImpl.DeserializeVisitor emptyMessage get (.message m) =
      .ok m) ∧
    (∀ fut : FUT, ConsumerManagerImpl.DeserializeVisitor emptyMessage get
      (.future (some fut)) = get fut) ∧
    (∀ (fut : FUT) (v : M), get fut = .ok v →
      ConsumerManagerImpl.DeserializeVisitor emptyMessage get (.future (some fut)) =
        .ok v) ∧
    ConsumerManagerImpl.DeserializeVisitor emptyMessage get (.future none) =
      .ok emptyMessage ∧
    (∀ x : DeserializedVariant M FUT,
      (∃ m, ConsumerManagerImpl.DeserializeVisitor emptyMessage get x = .ok m) ∨
      (∃ fut e, x = .future (some fut) ∧ get fut = .error e ∧
        ConsumerManagerImpl.DeserializeVisitor emptyMessage get x = .error e)) := by
  refine ⟨fun _ => rfl, fun _ => rfl, fun fut v h => ?_, rfl, ?_⟩
  · simp [ConsumerManagerImpl.DeserializeVisitor, h]
  · intro x
    match x with
    | .message m => exact Or.inl ⟨m, rfl⟩
    | .future none => exact Or.inl ⟨emptyMessage, rfl⟩
    | .future (some fut) =>
      cases hg : get fut with
      | ok v => exact Or.inl ⟨v, by simp [ConsumerManagerImpl.DeserializeVisitor, hg]⟩
      | error e =>
        exact Or.inr ⟨fut, e, rfl, hg, by simp [ConsumerManagerImpl.DeserializeVisitor, hg]⟩

/-- With `exampleFutureGet`: message 5 is returned as it is, future 3 yields
message 3, and the null future gives the empty message 0. -/
theorem DeserializeVisitor_example :
    ConsumerManagerImpl.DeserializeVisitor 0 exampleFutureGet (.message 5) = .ok 5 ∧
    ConsumerManagerImpl.DeserializeVisitor 0 exampleFutureGet (.future (some 3)) = .ok 3 ∧
    ConsumerManagerImpl.DeserializeVisitor 0 exampleFutureGet (.future none) = .ok 0 :=
  ⟨(DeserializeVisitor_total 0 exampleFutureGet).1 5,
    (DeserializeVisitor_total 0 exampleFutureGet).2.2.1 3 3 rfl,
    (DeserializeVisitor_total 0 exampleFutureGet).2.2.2.1⟩

end Visitor

end Bloomberg.corokafka
